import Mathlib

/-!
Shallow embedding of the nanosaur CLI configuration core
(`src/nanosaur/utilities.py`, `main.py`, `simulation.py`, `docker.py`)
and proofs about the behaviour its specification claims.

Python dictionaries are modelled as insertion-ordered association lists with
unique keys (`Dict`), heterogeneous YAML values as `PyVal`, disk writes as an
explicit output list, and Python exceptions as `Except`/`Option` results.
-/

namespace Nanosaur

/-- Heterogeneous configuration values (YAML scalars as used by the CLI). -/
inductive PyVal where
  | str (s : String)
  | int (n : Int)
  | bool (b : Bool)
  | none
deriving DecidableEq, Repr

/-- Insertion-ordered association list: the model of a Python `dict`. -/
abbrev Dict (α : Type) : Type := List (String × α)

/-- `d[k]` read: value of the first entry with key `k`. -/
def dlookup {α : Type} : Dict α → String → Option α
  | [], _ => Option.none
  | (k2, v) :: rest, k => if k2 = k then some v else dlookup rest k

/-- `d[k] = v` write: update in place if the key exists (Python keeps the
original position), otherwise append — Python 3.7+ dict semantics. -/
def dinsert {α : Type} : Dict α → String → α → Dict α
  | [], k, v => [(k, v)]
  | (k2, w) :: rest, k, v =>
    if k2 = k then (k2, v) :: rest else (k2, w) :: dinsert rest k v

/-- Keys of a dict, in insertion order. -/
def dkeys {α : Type} (d : Dict α) : List String := d.map Prod.fst

/-- Python `dict.__eq__`: same key set and equal values, order-insensitive. -/
def pyEqDict {α : Type} [DecidableEq α] (a b : Dict α) : Bool :=
  a.all (fun kv => decide (dlookup b kv.1 = some kv.2)) &&
  b.all (fun kv => decide (dlookup a kv.1 = some kv.2))

/-- A disk write performed by `Params.save`: target path and dumped mapping. -/
abbrev DiskWrite : Type := String × Dict PyVal

/-- Truthiness of `self.params_file` (`None` and `""` are falsy in Python). -/
def fileTruthy : Option String → Bool
  | Option.none => false
  | some f => f ≠ ""

/-- The `Params` object of `nanosaur/utilities.py`: the live mapping
`_params_dict`, the deep-copied `_default_params` taken at `__init__`, the
backing `params_file`, and the attribute mirror created by the `setattr`
loop in `__init__` and maintained by `__setitem__`/`set`. -/
structure Params where
  paramsDict : Dict PyVal
  defaultParams : Dict PyVal
  paramsFile : Option String
  attrs : Dict PyVal
deriving DecidableEq, Repr

/-- `Params.__init__(params_dict, params_file)`: `_default_params` is a deep
copy of the incoming dict and every item is mirrored onto an attribute. -/
def Params.init (d : Dict PyVal) (file : Option String) : Params :=
  { paramsDict := d, defaultParams := d, paramsFile := file, attrs := d }

/-- `Params.save`: writes `_params_dict` to `params_file` only when the file
is truthy and the dict differs from `_default_params`; returns the performed
disk writes. -/
def Params.save (p : Params) : List DiskWrite :=
  match p.paramsFile with
  | some f =>
    if f ≠ "" && !(pyEqDict p.paramsDict p.defaultParams) then
      [(f, p.paramsDict)]
    else []
  | Option.none => []

/-- `Params.__getitem__`: raises `KeyError` when the key is absent. -/
def Params.getitem (p : Params) (key : String) : Except String PyVal :=
  match dlookup p.paramsDict key with
  | some v => Except.ok v
  | Option.none => Except.error "KeyError"

/-- `Params.__setitem__`: updates `_params_dict`, mirrors the attribute,
then calls `save()` (which applies its dirty check). -/
def Params.setitem (p : Params) (key : String) (value : PyVal) :
    Params × List DiskWrite :=
  let p2 : Params :=
    { p with
      paramsDict := dinsert p.paramsDict key value
      attrs := dinsert p.attrs key value }
  (p2, Params.save p2)

/-- `Params.get(key, default)`: `getattr`-based lookup over the attribute
mirror; returns the default when absent, never raises. -/
def Params.get (p : Params) (key : String) (default : PyVal) : PyVal :=
  (dlookup p.attrs key).getD default

/-- `Params.set(key, value)`: the source only calls `setattr` (the attribute
mirror) and then `save()`; `_params_dict` is not touched. Returns the new
state, the disk writes, and the returned value. -/
def Params.set (p : Params) (key : String) (value : PyVal) :
    Params × List DiskWrite × PyVal :=
  let p2 : Params := { p with attrs := dinsert p.attrs key value }
  (p2, Params.save p2, value)

/-- `Params.__contains__`: membership in `_params_dict`. -/
def Params.contains (p : Params) (key : String) : Bool :=
  (dlookup p.paramsDict key).isSome

/-- `Params.__delitem__`: removes the key from the dict and the attribute
mirror; performs no save. -/
def Params.delitem (p : Params) (key : String) : Params :=
  { p with
    paramsDict := p.paramsDict.filter (fun kv => kv.1 ≠ key)
    attrs := p.attrs.filter (fun kv => kv.1 ≠ key) }

/-! ### Installation-mode lattice (`main.py`, `NANOSAUR_INSTALL_OPTIONS_RULES`
and the tail of `install`, lines 211-221) -/

/-- The keys of `NANOSAUR_INSTALL_OPTIONS_RULES`: the registered install
modes, including the hidden `Raffo` variant. -/
inductive Mode where
  | simple
  | developer
  | maintainer
  | Raffo
deriving DecidableEq, Repr

/-- The `'rule'` field of each entry of `NANOSAUR_INSTALL_OPTIONS_RULES`:
the prerequisite modes of a mode. -/
def Mode.ruleOf : Mode → List Mode
  | .simple => []
  | .developer => [.simple]
  | .maintainer => [.simple, .developer]
  | .Raffo => [.simple, .developer, .maintainer]

/-- The `'show'` field of each entry: the hidden mode is excluded from the
install menu choices. -/
def Mode.showOf : Mode → Bool
  | .simple => true
  | .developer => true
  | .maintainer => true
  | .Raffo => false

/-- String rendering of a mode, as the dictionary keys spell it. -/
def Mode.toStr : Mode → String
  | .simple => "simple"
  | .developer => "developer"
  | .maintainer => "maintainer"
  | .Raffo => "Raffo"

/-- Key lookup in `NANOSAUR_INSTALL_OPTIONS_RULES`; `Option.none` models the
`KeyError` a non-registered mode string would raise. -/
def modeOfStr (s : String) : Option Mode :=
  if s = "simple" then some .simple
  else if s = "developer" then some .developer
  else if s = "maintainer" then some .maintainer
  else if s = "Raffo" then some .Raffo
  else Option.none

/-- Decode the stored `'mode'` value (a `PyVal`) to a registered mode. -/
def decodePyMode : PyVal → Option Mode
  | .str s => modeOfStr s
  | _ => Option.none

/-- Tail of `install` in `main.py` (lines 211-221), the part that runs once
the user confirmed: the registered install operation's outcome is the
`opSuccess` parameter. On failure the function prints and returns `False`
with the store untouched. On success it reads
`current_mode = params.get('mode', 'simple')` and stores
`params['mode'] = install_type` unless
`install_type in NANOSAUR_INSTALL_OPTIONS_RULES[current_mode]['rule']`.
The `Except.error` models the `KeyError` raised when the stored mode is not
a registered rule key. Result: updated store, disk writes, returned bool. -/
def installFinalize (p : Params) (target : Mode) (opSuccess : Bool) :
    Except String (Params × List DiskWrite × Bool) :=
  if opSuccess = false then
    Except.ok (p, [], false)
  else
    match decodePyMode (Params.get p "mode" (PyVal.str "simple")) with
    | some current =>
      if target ∈ Mode.ruleOf current then
        Except.ok (p, [], true)
      else
        let r := Params.setitem p "mode" (PyVal.str (Mode.toStr target))
        Except.ok (r.1, r.2, true)
    | Option.none => Except.error "KeyError"

/-! ### Version-constraint resolver (`simulation.py`)

`PATTERN_VERSION = re.compile(r'(>=|<=|>|<|==|!=)\s*([\d\.]+)')`,
`MAP_OPERATOR_VERSION`, `packaging.version.parse`, and
`check_isaac_sim` / `validate_isaac_sim` / `find_all_isaac_sim`. -/

/-- The operator tokens of `MAP_OPERATOR_VERSION`. -/
inductive VerOp where
  | ge
  | le
  | gt
  | lt
  | eq
  | ne
deriving DecidableEq, Repr

/-- Python `\s` character class (space, tab, newline, return, vtab, formfeed). -/
def pyIsSpaceChar (c : Char) : Bool :=
  c = ' ' || c = '\t' || c = '\n' || c = '\r' ||
  c = Char.ofNat 11 || c = Char.ofNat 12

/-- Character class `[\d\.]` of the version group of `PATTERN_VERSION`. -/
def isVerChar (c : Char) : Bool := c.isDigit || c = '.'

/-- Match one operator alternative of `PATTERN_VERSION` at the head of the
input, in the regex's alternation order (`>=` before `>`, `<=` before `<`). -/
def matchOpAt : List Char → Option (VerOp × List Char)
  | '>' :: '=' :: rest => some (.ge, rest)
  | '<' :: '=' :: rest => some (.le, rest)
  | '>' :: rest => some (.gt, rest)
  | '<' :: rest => some (.lt, rest)
  | '=' :: '=' :: rest => some (.eq, rest)
  | '!' :: '=' :: rest => some (.ne, rest)
  | _ => Option.none

/-- Worker for `re.findall` over `PATTERN_VERSION`: scan left to right; at
each position try the operator alternation, then `\s*` (greedy), then one or
more `[\d\.]` characters; a failed attempt advances one character, a match
resumes after its end (non-overlapping matches). The fuel starts at the
input length, which bounds the number of steps, so it is never exhausted. -/
def findallAux : Nat → List Char → List (VerOp × String)
  | 0, _ => []
  | _, [] => []
  | fuel + 1, c :: rest =>
    match matchOpAt (c :: rest) with
    | some (op, after) =>
      let afterSpaces := after.dropWhile pyIsSpaceChar
      let verChars := afterSpaces.takeWhile isVerChar
      if verChars.isEmpty then findallAux fuel rest
      else (op, String.mk verChars) ::
        findallAux fuel (afterSpaces.drop verChars.length)
    | Option.none => findallAux fuel rest

/-- `PATTERN_VERSION.findall(required)`: all extracted (operator, version)
clauses of a requirement string. -/
def patternFindall (s : String) : List (VerOp × String) :=
  findallAux s.data.length s.data

/-- Split a character list on `'.'`, like Python `str.split('.')` (an empty
input yields one empty segment). -/
def splitDots : List Char → List (List Char)
  | [] => [[]]
  | c :: rest =>
    if c = '.' then [] :: splitDots rest
    else
      match splitDots rest with
      | seg :: segs => (c :: seg) :: segs
      | [] => [[c]]

/-- Numeric value of a digit string. -/
def digitsToNat (cs : List Char) : Nat :=
  cs.foldl (fun n c => n * 10 + (c.toNat - '0'.toNat)) 0

/-- `packaging.version.parse` restricted to release-only versions: the
dotted string becomes the list of numeric segments; a malformed string
(empty segment or non-digit character) yields `Option.none`, modelling the
`InvalidVersion` exception. -/
def parseVer (s : String) : Option (List Nat) :=
  let segs := splitDots s.data
  if segs.any (fun seg => seg.isEmpty || seg.any (fun c => !c.isDigit)) then
    Option.none
  else some (segs.map digitsToNat)

/-- Segment-wise comparison of parsed versions with zero padding, the order
`packaging.version.Version` induces on release tuples
(`4.10 > 4.9`, `4 = 4.0`). -/
def vcmp : List Nat → List Nat → Ordering
  | [], b => if b.all (fun x => x = 0) then Ordering.eq else Ordering.lt
  | a :: as, [] => if a = 0 then vcmp as [] else Ordering.gt
  | a :: as, b :: bs =>
    if a < b then Ordering.lt
    else if b < a then Ordering.gt
    else vcmp as bs

/-- `MAP_OPERATOR_VERSION`: each operator token applied to two parsed
versions is the corresponding comparison predicate. -/
def MAP_OPERATOR_VERSION (op : VerOp) (a b : List Nat) : Bool :=
  match op with
  | .ge => vcmp a b != Ordering.lt
  | .le => vcmp a b != Ordering.gt
  | .gt => vcmp a b == Ordering.gt
  | .lt => vcmp a b == Ordering.lt
  | .eq => vcmp a b == Ordering.eq
  | .ne => vcmp a b != Ordering.eq

/-! ### Backend discovery (`simulation.py`) -/

/-- What `check_isaac_sim` observes about a candidate directory: whether the
three marker files `VERSION`, `isaac-sim.sh`, `python.sh` exist at its top
level, and the content of the `VERSION` descriptor. -/
structure IsaacDir where
  hasVERSION : Bool
  hasIsaacSimSh : Bool
  hasPythonSh : Bool
  versionContent : String
deriving DecidableEq, Repr

/-- Python `str.strip()`: drop whitespace from both ends. -/
def pyStrip (s : String) : String :=
  String.mk (((s.data.dropWhile pyIsSpaceChar).reverse.dropWhile
    pyIsSpaceChar).reverse)

/-- Python `s.split('-')[0]`: the prefix before the first `'-'`. -/
def truncDash (s : String) : String :=
  String.mk (s.data.takeWhile (fun c => c ≠ '-'))

/-- `check_isaac_sim(full_path)`: the version (descriptor content stripped
and truncated at the first `'-'`) when all three marker files exist,
otherwise `None`. -/
def check_isaac_sim (d : IsaacDir) : Option String :=
  if d.hasVERSION && d.hasIsaacSimSh && d.hasPythonSh then
    some (truncDash (pyStrip d.versionContent))
  else Option.none

/-- Evaluate Python's `all(MAP_OPERATOR_VERSION[op](parse(version),
parse(ver)) for op, ver in conditions)`: short-circuits on the first false
clause; `Option.none` models an `InvalidVersion` exception raised while
evaluating a clause. An empty clause list never calls `parse`. -/
def evalConds (version : String) : List (VerOp × String) → Option Bool
  | [] => some true
  | (op, ver) :: rest =>
    match parseVer version, parseVer ver with
    | some a, some b =>
      if MAP_OPERATOR_VERSION op a b then evalConds version rest
      else some false
    | _, _ => Option.none

/-- `validate_isaac_sim(isaac_sim_path, required)`: extract the clauses,
then — only when `check_isaac_sim` yields a truthy (non-empty) version —
require every clause to hold; an invalid installation (or a falsy version
string) yields `False`. `Option.none` models an uncaught exception. -/
def validate_isaac_sim (d : IsaacDir) (required : String) : Option Bool :=
  let conditions := patternFindall required
  match check_isaac_sim d with
  | some version =>
    if version ≠ "" then evalConds version conditions else some false
  | Option.none => some false

/-- One entry of `os.listdir(base_path)` together with what
`check_isaac_sim` would observe at `os.path.join(base_path, folder)`. -/
structure ScanEntry where
  name : String
  dir : IsaacDir
deriving DecidableEq, Repr

/-- One search root of `find_all_isaac_sim`: its path, whether
`os.path.exists(base_path)` holds, and its directory listing in iteration
order. -/
structure ScanRoot where
  path : String
  rootExists : Bool
  entries : List ScanEntry
deriving DecidableEq, Repr

/-- The inner loop of `find_all_isaac_sim` over one root: each folder whose
`check_isaac_sim` result is truthy is recorded under its version key
(`isaac_sim_folders[version] = full_path`). -/
def scanRoot (basePath : String) (entries : List ScanEntry)
    (acc : Dict String) : Dict String :=
  entries.foldl
    (fun d e =>
      match check_isaac_sim e.dir with
      | some version =>
        if version ≠ "" then dinsert d version (basePath ++ "/" ++ e.name)
        else d
      | Option.none => d)
    acc

/-- Code-point lexicographic comparison of character lists: the order
Python uses to compare `str` values. -/
def lexCmp : List Char → List Char → Ordering
  | [], [] => Ordering.eq
  | [], _ :: _ => Ordering.lt
  | _ :: _, [] => Ordering.gt
  | a :: as, b :: bs =>
    if a < b then Ordering.lt
    else if b < a then Ordering.gt
    else lexCmp as bs

/-- Python `s <= t` on strings. -/
def pyStrLe (s t : String) : Bool := lexCmp s.data t.data != Ordering.gt

/-- The descending comparison used to sort candidate items by version key. -/
def descByKey (a b : String × String) : Prop := pyStrLe b.1 a.1 = true

instance : DecidableRel descByKey := fun a b => by
  unfold descByKey; infer_instance

/-- Descending sort of the accumulated dict items by their key **as a
string** — `dict(sorted(items, key=lambda item: item[0], reverse=True))`.
Python compares strings lexicographically by code point (`lexCmp`); the
keys are distinct, so any sort w.r.t. this total order produces Python's
output. -/
def pySortDesc (d : Dict String) : Dict String :=
  List.insertionSort descByKey d

/-- `find_all_isaac_sim()`: scan every existing root in order, then return
the dict sorted by version key, descending (string order). -/
def find_all_isaac_sim (roots : List ScanRoot) : Dict String :=
  pySortDesc
    (roots.foldl
      (fun d r => if r.rootExists then scanRoot r.path r.entries d else d)
      [])

/-- The candidate (version, full path) pairs one root contributes, in scan
order. -/
def rootPairs (basePath : String) (entries : List ScanEntry) :
    List (String × String) :=
  entries.filterMap
    (fun e =>
      match check_isaac_sim e.dir with
      | some version =>
        if version ≠ "" then some (version, basePath ++ "/" ++ e.name)
        else Option.none
      | Option.none => Option.none)

/-- Modelled from the spec: the flattened candidate list in scan order,
used to state the "duplicate versions across roots: later root overwrites
earlier (last-scanned wins)" contract of `scanInstalled`. -/
def collectScan : List ScanRoot → List (String × String)
  | [] => []
  | r :: rest =>
    (if r.rootExists then rootPairs r.path r.entries else []) ++
      collectScan rest

/-- A directory with all three marker files and the given descriptor
content. -/
def validIsaacDir (content : String) : IsaacDir :=
  { hasVERSION := true, hasIsaacSimSh := true, hasPythonSh := true
    versionContent := content }

/-- Fold a list of (key, value) pairs into a dict by repeated `d[k] = v`. -/
def foldIns {α : Type} (acc : Dict α) (l : List (String × α)) : Dict α :=
  l.foldl (fun d p => dinsert d p.1 p.2) acc

/-! ### Compose orchestrator, `docker_robot_stop` (`docker.py`) -/

/-- Outcome reported by `docker_robot_stop`. -/
inductive StopOutcome where
  | stopped
  | notRunning
deriving DecidableEq, Repr

/-- `docker_robot_stop`: checks `len(nanosaur_compose.compose.ps()) > 0`
first; tears down (`compose.down(volumes=True)`) only when the live service
list is non-empty, otherwise prints that the robot is not running. The
function raises nothing and returns `None` on both branches; the result is
(number of `down` calls, outcome, printed message). -/
def docker_robot_stop (robotName : String) (psServices : List String) :
    Nat × StopOutcome × String :=
  if psServices.length > 0 then
    (1, StopOutcome.stopped, "robot " ++ robotName ++ " stopped")
  else
    (0, StopOutcome.notRunning,
      "The robot " ++ robotName ++ " is not running.")

/-! ### CLI dispatcher call site (`main.py`, lines 424-426) -/

/-- Positional parameter names of `Params.set` after `self`. -/
def paramsSetSig : List String := ["key", "value"]

/-- CPython argument binding for a plain function with no defaults, no
`*args` and no `**kwargs`: a `TypeError` is raised for too many positional
arguments, an unexpected or already-bound keyword, or a missing argument. -/
def bindPyCall (sig : List String) (numPositional : Nat)
    (kwargs : List String) : Except String Unit :=
  if numPositional > sig.length then Except.error "TypeError"
  else if kwargs.any
      (fun kw => !(sig.contains kw) || (sig.take numPositional).contains kw)
    then Except.error "TypeError"
  else if (sig.drop numPositional).any (fun pname => !kwargs.contains pname)
    then Except.error "TypeError"
  else Except.ok ()

/-- How the tail of `main()` ends for the purpose of the `--mode` call. -/
inductive MainStep where
  | raisedTypeError
  | subcommandRun
  | helpShown
deriving DecidableEq, Repr

/-- Tail of `main()`: after `parse_args`, when `args.mode` is truthy the
dispatcher calls `params.set('mode', args.mode, save=False)` — two
positional arguments plus the keyword `save` — before any subcommand
function (`args.func`) runs; an uncaught `TypeError` aborts there. -/
def mainModeDispatch (argsMode : Option String) (hasFunc : Bool) :
    MainStep :=
  let truthy :=
    match argsMode with
    | some s => s != ""
    | Option.none => false
  if truthy then
    match bindPyCall paramsSetSig 2 ["save"] with
    | Except.error _ => MainStep.raisedTypeError
    | Except.ok _ =>
      if hasFunc then MainStep.subcommandRun else MainStep.helpShown
  else if hasFunc then MainStep.subcommandRun
  else MainStep.helpShown

/-! ### Dictionary lemmas -/

theorem dlookup_dinsert {α : Type} (d : Dict α) (k k2 : String) (v : α) :
    dlookup (dinsert d k v) k2 = if k = k2 then some v else dlookup d k2 := by
  induction d with
  | nil => simp [dinsert, dlookup]
  | cons kv rest ih =>
    obtain ⟨k3, w⟩ := kv
    by_cases h3 : k3 = k
    · subst h3
      by_cases h2 : k3 = k2 <;> simp [dinsert, dlookup, h2]
    · by_cases h2 : k3 = k2
      · subst h2
        have : ¬ k = k3 := fun h => h3 h.symm
        simp [dinsert, dlookup, h3, this]
      · simp [dinsert, dlookup, h3, h2, ih]

theorem mem_of_dlookup {α : Type} {d : Dict α} {k : String} {v : α}
    (h : dlookup d k = some v) : (k, v) ∈ d := by
  induction d with
  | nil => simp [dlookup] at h
  | cons kv rest ih =>
    obtain ⟨k2, w⟩ := kv
    by_cases h2 : k2 = k
    · subst h2
      simp [dlookup] at h
      simp [h]
    · simp [dlookup, h2] at h
      exact List.mem_cons_of_mem _ (ih h)

theorem dlookup_eq_none_iff {α : Type} (d : Dict α) (k : String) :
    dlookup d k = Option.none ↔ k ∉ dkeys d := by
  induction d with
  | nil => simp [dlookup, dkeys]
  | cons kv rest ih =>
    obtain ⟨k2, w⟩ := kv
    by_cases h2 : k2 = k
    · subst h2
      simp [dlookup, dkeys]
    · simp [dlookup, dkeys, h2, Ne.symm h2] at ih ⊢
      exact ih

theorem dlookup_of_mem_nodup {α : Type} {d : Dict α} {k : String} {v : α}
    (hnd : (dkeys d).Nodup) (hm : (k, v) ∈ d) : dlookup d k = some v := by
  induction d with
  | nil => simp at hm
  | cons kv rest ih =>
    obtain ⟨k2, w⟩ := kv
    simp [dkeys] at hnd
    rcases List.mem_cons.1 hm with heq | htail
    · rw [Prod.ext_iff] at heq
      obtain ⟨hk, hv⟩ := heq
      simp at hk hv
      subst hk hv
      simp [dlookup]
    · by_cases h2 : k2 = k
      · subst h2
        exact absurd htail (hnd.1 v)
      · simp [dlookup, h2]
        exact ih hnd.2 htail

theorem dlookup_perm {α : Type} {d1 d2 : Dict α}
    (hp : d1.Perm d2) (hnd : (dkeys d1).Nodup) (k : String) :
    dlookup d1 k = dlookup d2 k := by
  have hkeys : (dkeys d1).Perm (dkeys d2) := hp.map Prod.fst
  have hnd2 : (dkeys d2).Nodup := hkeys.nodup_iff.1 hnd
  cases hc : dlookup d1 k with
  | none =>
    have hk1 : k ∉ dkeys d1 := (dlookup_eq_none_iff d1 k).1 hc
    have hk2 : k ∉ dkeys d2 := fun h => hk1 (hkeys.mem_iff.2 h)
    exact ((dlookup_eq_none_iff d2 k).2 hk2).symm
  | some v =>
    have hm : (k, v) ∈ d2 := hp.mem_iff.1 (mem_of_dlookup hc)
    exact (dlookup_of_mem_nodup hnd2 hm).symm

theorem dkeys_dinsert {α : Type} (d : Dict α) (k : String) (v : α) :
    dkeys (dinsert d k v) =
      if k ∈ dkeys d then dkeys d else dkeys d ++ [k] := by
  induction d with
  | nil => simp [dinsert, dkeys]
  | cons kv rest ih =>
    obtain ⟨k2, w⟩ := kv
    by_cases h2 : k2 = k
    · subst h2
      simp [dinsert, dkeys]
    · have ih2 : List.map Prod.fst (dinsert rest k v) =
          if k ∈ List.map Prod.fst rest then List.map Prod.fst rest
          else List.map Prod.fst rest ++ [k] := ih
      have hstep : dinsert ((k2, w) :: rest) k v =
          (k2, w) :: dinsert rest k v := by
        simp [dinsert, h2]
      rw [hstep]
      show k2 :: List.map Prod.fst (dinsert rest k v) = _
      rw [ih2]
      by_cases hm : k ∈ List.map Prod.fst rest
      · rw [if_pos hm,
          if_pos (show k ∈ dkeys ((k2, w) :: rest) from
            List.mem_cons_of_mem _ hm)]
        rfl
      · have hnot : k ∉ dkeys ((k2, w) :: rest) := by
          intro hc
          rcases List.mem_cons.1 hc with h | h
          · exact h2 h.symm
          · exact hm h
        rw [if_neg hm, if_neg hnot]
        rfl

theorem nodup_dkeys_dinsert {α : Type} {d : Dict α} (k : String) (v : α)
    (hnd : (dkeys d).Nodup) : (dkeys (dinsert d k v)).Nodup := by
  rw [dkeys_dinsert]
  by_cases hm : k ∈ dkeys d
  · simpa [hm]
  · simp [hm, List.nodup_append, hnd]

theorem nodup_dkeys_foldIns {α : Type} (l : List (String × α))
    (acc : Dict α) (hnd : (dkeys acc).Nodup) :
    (dkeys (foldIns acc l)).Nodup := by
  induction l generalizing acc with
  | nil => exact hnd
  | cons p rest ih =>
    exact ih (dinsert acc p.1 p.2) (nodup_dkeys_dinsert p.1 p.2 hnd)

theorem dlookup_foldIns {α : Type} (l : List (String × α)) (acc : Dict α)
    (k : String) :
    dlookup (foldIns acc l) k =
      match dlookup l.reverse k with
      | some v => some v
      | Option.none => dlookup acc k := by
  induction l generalizing acc with
  | nil => simp [foldIns, dlookup]
  | cons p rest ih =>
    obtain ⟨k2, v⟩ := p
    have step : foldIns acc ((k2, v) :: rest) =
        foldIns (dinsert acc k2 v) rest := rfl
    rw [step, ih]
    have hrev : ((k2, v) :: rest).reverse = rest.reverse ++ [(k2, v)] := by
      simp
    rw [hrev]
    have happ : ∀ (d1 d2 : Dict α),
        dlookup (d1 ++ d2) k =
          match dlookup d1 k with
          | some v => some v
          | Option.none => dlookup d2 k := by
      intro d1 d2
      induction d1 with
      | nil => simp [dlookup]
      | cons q qs ihq =>
        obtain ⟨k3, w⟩ := q
        by_cases h3 : k3 = k <;> simp [dlookup, h3, ihq]
    rw [happ]
    cases hc : dlookup rest.reverse k with
    | some w => simp
    | none =>
      simp only []
      by_cases h2 : k2 = k <;>
        simp [dlookup, dlookup_dinsert, h2]

theorem pyEqDict_lookup {α : Type} [DecidableEq α] {a b : Dict α}
    (h : pyEqDict a b = true) (k : String) : dlookup a k = dlookup b k := by
  unfold pyEqDict at h
  rw [Bool.and_eq_true, List.all_eq_true, List.all_eq_true] at h
  obtain ⟨ha, hb⟩ := h
  cases hc : dlookup a k with
  | some v =>
    have hm : (k, v) ∈ a := mem_of_dlookup hc
    have := ha _ hm
    simp at this
    exact this.symm ▸ rfl
  | none =>
    cases hd : dlookup b k with
    | none => rfl
    | some w =>
      have hm : (k, w) ∈ b := mem_of_dlookup hd
      have := hb _ hm
      simp at this
      rw [hc] at this
      exact absurd this (by simp)

/-! ### Lexicographic string comparison lemmas -/

theorem lexCmp_swap : ∀ a b : List Char, lexCmp b a = (lexCmp a b).swap
  | [], [] => rfl
  | [], _ :: _ => rfl
  | _ :: _, [] => rfl
  | a :: as, b :: bs => by
    rcases lt_trichotomy a b with h | h | h
    · have h2 : ¬ b < a := not_lt.2 (le_of_lt h)
      simp [lexCmp, h, h2, Ordering.swap]
    · have h1 : ¬ a < b := by simp [h]
      have h2 : ¬ b < a := by simp [h]
      simp [lexCmp, h1, h2]
      exact lexCmp_swap as bs
    · have h2 : ¬ a < b := not_lt.2 (le_of_lt h)
      simp [lexCmp, h, h2, Ordering.swap]

theorem lexCmp_lt_trans :
    ∀ {a b c : List Char}, lexCmp a b = Ordering.lt →
      lexCmp b c = Ordering.lt → lexCmp a c = Ordering.lt
  | [], [], _, h1, _ => by simp [lexCmp] at h1
  | [], _ :: _, [], _, h2 => by simp [lexCmp] at h2
  | [], _ :: _, _ :: _, _, _ => rfl
  | _ :: _, [], _, h1, _ => by simp [lexCmp] at h1
  | _ :: _, _ :: _, [], _, h2 => by simp [lexCmp] at h2
  | a :: as, b :: bs, c :: cs, h1, h2 => by
    simp only [lexCmp] at h1 h2 ⊢
    by_cases hab : a < b
    · by_cases hbc : b < c
      · rw [if_pos (lt_trans hab hbc)]
      · rw [if_neg hbc] at h2
        by_cases hcb : c < b
        · rw [if_pos hcb] at h2
          exact absurd h2 (by simp)
        · have hbceq : b = c := le_antisymm (not_lt.1 hcb) (not_lt.1 hbc)
          rw [if_pos (hbceq ▸ hab)]
    · rw [if_neg hab] at h1
      by_cases hba : b < a
      · rw [if_pos hba] at h1
        exact absurd h1 (by simp)
      · have habeq : a = b := le_antisymm (not_lt.1 hba) (not_lt.1 hab)
        rw [if_neg hba] at h1
        by_cases hbc : b < c
        · rw [if_pos (habeq ▸ hbc)]
        · rw [if_neg hbc] at h2
          by_cases hcb : c < b
          · rw [if_pos hcb] at h2
            exact absurd h2 (by simp)
          · rw [if_neg hcb] at h2
            have hbceq : b = c :=
              le_antisymm (not_lt.1 hcb) (not_lt.1 hbc)
            have hac : ¬ a < c := by
              rw [habeq, hbceq]
              exact lt_irrefl _
            have hca : ¬ c < a := by
              rw [habeq, hbceq]
              exact lt_irrefl _
            rw [if_neg hac, if_neg hca]
            exact lexCmp_lt_trans h1 h2

theorem lexCmp_eq_of_eq : ∀ {a b : List Char}, lexCmp a b = Ordering.eq → a = b
  | [], [], _ => rfl
  | [], _ :: _, h => by simp [lexCmp] at h
  | _ :: _, [], h => by simp [lexCmp] at h
  | a :: as, b :: bs, h => by
    simp only [lexCmp] at h
    by_cases hab : a < b
    · rw [if_pos hab] at h
      exact absurd h (by simp)
    · rw [if_neg hab] at h
      by_cases hba : b < a
      · rw [if_pos hba] at h
        exact absurd h (by simp)
      · rw [if_neg hba] at h
        have hv : a = b := le_antisymm (not_lt.1 hba) (not_lt.1 hab)
        rw [hv, lexCmp_eq_of_eq h]

theorem pyStrLe_total (s t : String) :
    pyStrLe s t = true ∨ pyStrLe t s = true := by
  unfold pyStrLe
  cases hc : lexCmp s.data t.data with
  | lt => left; rfl
  | eq => left; rfl
  | gt =>
    right
    rw [lexCmp_swap s.data t.data, hc]
    rfl

theorem pyStrLe_trans {s t u : String} (h1 : pyStrLe s t = true)
    (h2 : pyStrLe t u = true) : pyStrLe s u = true := by
  unfold pyStrLe at h1 h2 ⊢
  cases hst : lexCmp s.data t.data with
  | gt => rw [hst] at h1; exact absurd h1 (by decide)
  | eq => rw [lexCmp_eq_of_eq hst]; exact h2
  | lt =>
    cases htu : lexCmp t.data u.data with
    | gt => rw [htu] at h2; exact absurd h2 (by decide)
    | eq => rw [← lexCmp_eq_of_eq htu]; exact h1
    | lt => rw [lexCmp_lt_trans hst htu]; rfl

instance : IsTotal (String × String) descByKey :=
  ⟨fun a b => by
    unfold descByKey
    rcases pyStrLe_total b.1 a.1 with h | h
    · exact Or.inl h
    · exact Or.inr h⟩

instance : IsTrans (String × String) descByKey :=
  ⟨fun _ _ _ h1 h2 => pyStrLe_trans h2 h1⟩

/-! ### Scan bridging lemmas -/

theorem scanRoot_eq_foldIns (basePath : String) :
    ∀ (entries : List ScanEntry) (acc : Dict String),
      scanRoot basePath entries acc =
        foldIns acc (rootPairs basePath entries)
  | [], _ => rfl
  | e :: rest, acc => by
    cases hc : check_isaac_sim e.dir with
    | none =>
      have hl : scanRoot basePath (e :: rest) acc =
          scanRoot basePath rest acc := by
        simp [scanRoot, hc]
      have hr : rootPairs basePath (e :: rest) =
          rootPairs basePath rest := by
        simp [rootPairs, hc]
      rw [hl, hr]
      exact scanRoot_eq_foldIns basePath rest acc
    | some version =>
      by_cases hv : version ≠ ""
      · have hl : scanRoot basePath (e :: rest) acc =
            scanRoot basePath rest
              (dinsert acc version (basePath ++ "/" ++ e.name)) := by
          simp [scanRoot, hc, hv]
        have hr : rootPairs basePath (e :: rest) =
            (version, basePath ++ "/" ++ e.name) ::
              rootPairs basePath rest := by
          simp [rootPairs, hc, hv]
        rw [hl, hr]
        exact scanRoot_eq_foldIns basePath rest _
      · have hv2 : version = "" := not_ne_iff.1 hv
        have hl : scanRoot basePath (e :: rest) acc =
            scanRoot basePath rest acc := by
          simp [scanRoot, hc, hv2]
        have hr : rootPairs basePath (e :: rest) =
            rootPairs basePath rest := by
          simp [rootPairs, hc, hv2]
        rw [hl, hr]
        exact scanRoot_eq_foldIns basePath rest acc

theorem foldIns_append {α : Type} (acc : Dict α)
    (l1 l2 : List (String × α)) :
    foldIns acc (l1 ++ l2) = foldIns (foldIns acc l1) l2 :=
  List.foldl_append _ _ _ _

theorem scan_foldl_eq_foldIns :
    ∀ (roots : List ScanRoot) (acc : Dict String),
      roots.foldl
        (fun d r => if r.rootExists then scanRoot r.path r.entries d else d)
        acc = foldIns acc (collectScan roots)
  | [], _ => rfl
  | r :: rest, acc => by
    by_cases hx : r.rootExists
    · have hl : (r :: rest).foldl
          (fun d r => if r.rootExists then scanRoot r.path r.entries d else d)
          acc = rest.foldl
            (fun d r => if r.rootExists then scanRoot r.path r.entries d
              else d) (scanRoot r.path r.entries acc) := by
        simp [hx]
      rw [hl, scan_foldl_eq_foldIns rest, collectScan,
        scanRoot_eq_foldIns r.path r.entries acc, if_pos hx, foldIns_append]
    · have hl : (r :: rest).foldl
          (fun d r => if r.rootExists then scanRoot r.path r.entries d else d)
          acc = rest.foldl
            (fun d r => if r.rootExists then scanRoot r.path r.entries d
              else d) acc := by
        simp [hx]
      rw [hl, scan_foldl_eq_foldIns rest, collectScan, if_neg hx]
      rfl

theorem find_all_eq_sort_foldIns (roots : List ScanRoot) :
    find_all_isaac_sim roots = pySortDesc (foldIns [] (collectScan roots)) := by
  unfold find_all_isaac_sim
  rw [scan_foldl_eq_foldIns roots []]

/-! ### Claim theorems -/

/-- Claim C1: `ConfigStore.save()` performs zero disk writes when the
current mapping equals the mapping the store was initialized with, or when
no path was provided; it performs exactly one disk write when a path was
provided and any key of the mapping differs from the initial mapping. -/
theorem claim_C1_save_dirty_check (p : Params) :
    ((pyEqDict p.paramsDict p.defaultParams = true ∨
        fileTruthy p.paramsFile = false) → (Params.save p).length = 0) ∧
    (fileTruthy p.paramsFile = true →
      (∃ k, dlookup p.paramsDict k ≠ dlookup p.defaultParams k) →
      (Params.save p).length = 1) := by
  constructor
  · intro h
    unfold Params.save
    cases hf : p.paramsFile with
    | none => rfl
    | some f =>
      rcases h with h | h
      · simp [h]
      · unfold fileTruthy at h
        rw [hf] at h
        simp at h
        simp [h]
  · intro hf hex
    obtain ⟨k, hk⟩ := hex
    have hne : pyEqDict p.paramsDict p.defaultParams = false := by
      cases hc : pyEqDict p.paramsDict p.defaultParams with
      | false => rfl
      | true => exact absurd (pyEqDict_lookup hc k) hk
    unfold Params.save
    cases hp : p.paramsFile with
    | none =>
      unfold fileTruthy at hf
      rw [hp] at hf
      exact absurd hf (by simp)
    | some f =>
      unfold fileTruthy at hf
      rw [hp] at hf
      simp at hf
      simp [hf, hne]

/-- Closed witness for C1 at concrete stores. -/
theorem claim_C1_save_dirty_check_witness :
    (Params.save
      { paramsDict := [("a", PyVal.int 1)]
        defaultParams := [("a", PyVal.int 0)]
        paramsFile := some "cfg"
        attrs := [("a", PyVal.int 1)] }).length = 1 ∧
    (Params.save (Params.init [("a", PyVal.int 1)] (some "cfg"))).length
      = 0 := by
  constructor
  · exact (claim_C1_save_dirty_check _).2 (by decide) ⟨"a", by decide⟩
  · exact (claim_C1_save_dirty_check _).1 (Or.inl (by decide))

/-- Claim C2 (code bug): the spec says `set(key, value)` mutates the stored
mapping and persists it, but the source's `Params.set` only calls `setattr`
and the unchanged `_params_dict` defeats both the mapping update and the
dirty check. Evaluated at the failing input: a fresh store
`{'mode': 'simple'}` with a path, after `set('mode', 'developer')` the
mapping still holds `'simple'`, zero disk writes happen, and only the
attribute mirror holds `'developer'`. -/
theorem claim_C2_set_does_not_persist :
    (Params.set (Params.init [("mode", PyVal.str "simple")]
        (some "nanosaur.yaml")) "mode" (PyVal.str "developer")).1.paramsDict
      = [("mode", PyVal.str "simple")] ∧
    (Params.set (Params.init [("mode", PyVal.str "simple")]
        (some "nanosaur.yaml")) "mode" (PyVal.str "developer")).2.1 = [] ∧
    Params.get (Params.set (Params.init [("mode", PyVal.str "simple")]
        (some "nanosaur.yaml")) "mode" (PyVal.str "developer")).1 "mode"
      PyVal.none = PyVal.str "developer" := by
  decide

/-- Claim C3 counterexample: item assignment does **not** always write.
Assigning into a store whose mapping still equals its initial mapping
(`store['a'] = 1` where `'a'` is already `1`) performs zero disk writes,
because `__setitem__` persists through `save()` and its dirty check. -/
theorem claim_C3_counterexample :
    (Params.setitem (Params.init [("a", PyVal.int 1)] (some "cfg.yaml")) "a"
      (PyVal.int 1)).2.length = 0 := by
  decide

/-- Claim C3 as amended: item assignment `store[k] = v` updates the mapping
and the attribute mirror and then persists via `save()`, subject to the
same dirty check as `set` (a write happens exactly when a path was provided
and the updated mapping differs from the initial mapping); item access
raises a `KeyError`-equivalent when the key is absent. -/
theorem claim_C3_setitem_dirty_check (p : Params) (k : String) (v : PyVal) :
    (Params.setitem p k v).1.paramsDict = dinsert p.paramsDict k v ∧
    (Params.setitem p k v).1.attrs = dinsert p.attrs k v ∧
    (Params.setitem p k v).2.length =
      (if fileTruthy p.paramsFile = true ∧
          pyEqDict (dinsert p.paramsDict k v) p.defaultParams = false
        then 1 else 0) ∧
    (∀ k2, dlookup p.paramsDict k2 = Option.none →
      Params.getitem p k2 = Except.error "KeyError") := by
  refine ⟨rfl, rfl, ?_, ?_⟩
  · show (Params.save
      { p with
        paramsDict := dinsert p.paramsDict k v
        attrs := dinsert p.attrs k v }).length = _
    unfold Params.save
    cases hp : p.paramsFile with
    | none => simp [fileTruthy]
    | some f =>
      by_cases hf : f = ""
      · subst hf
        simp [fileTruthy]
      · cases hd : pyEqDict (dinsert p.paramsDict k v) p.defaultParams with
        | true => simp [fileTruthy, hf, hd]
        | false => simp [fileTruthy, hf, hd]
  · intro k2 h
    unfold Params.getitem
    rw [h]

/-- Closed witness for the amended C3 at a concrete store. -/
theorem claim_C3_setitem_dirty_check_witness :
    Params.getitem (Params.init [("a", PyVal.int 1)] (some "cfg.yaml")) "zz"
      = Except.error "KeyError" ∧
    (Params.setitem (Params.init [("a", PyVal.int 1)] (some "cfg.yaml")) "b"
      (PyVal.int 2)).1.paramsDict
      = [("a", PyVal.int 1), ("b", PyVal.int 2)] := by
  have h := claim_C3_setitem_dirty_check
    (Params.init [("a", PyVal.int 1)] (some "cfg.yaml")) "b" (PyVal.int 2)
  exact ⟨h.2.2.2 "zz" rfl, by rw [h.1]; decide⟩

/-- Claim C4: if the registered install operation fails, the stored mode is
unchanged and the caller is notified (`False`); after success the stored
mode becomes the target unless the target is in the currently stored mode's
prerequisite set, in which case the store is unchanged (re-running a
lower-tier install never downgrades the mode). -/
theorem claim_C4_install_mode_monotone (p : Params) (target m : Mode)
    (hm : decodePyMode (Params.get p "mode" (PyVal.str "simple")) = some m) :
    (installFinalize p target false = Except.ok (p, [], false)) ∧
    (target ∈ Mode.ruleOf m →
      installFinalize p target true = Except.ok (p, [], true)) ∧
    (target ∉ Mode.ruleOf m →
      ∃ res, installFinalize p target true = Except.ok res ∧
        dlookup res.1.paramsDict "mode"
          = some (PyVal.str (Mode.toStr target)) ∧
        res.2.2 = true) := by
  refine ⟨rfl, ?_, ?_⟩
  · intro hmem
    unfold installFinalize
    rw [hm]
    simp [hmem]
  · intro hnot
    have hstep : installFinalize p target true =
        Except.ok
          ((Params.setitem p "mode" (PyVal.str (Mode.toStr target))).1,
            (Params.setitem p "mode" (PyVal.str (Mode.toStr target))).2,
            true) := by
      unfold installFinalize
      rw [hm]
      simp [hnot]
    refine ⟨_, hstep, ?_, rfl⟩
    show dlookup (dinsert p.paramsDict "mode" (PyVal.str (Mode.toStr target)))
      "mode" = _
    rw [dlookup_dinsert]
    simp

/-- Closed witness for C4: stored mode `maintainer`; a failing install
leaves it alone, a successful `developer` install does not downgrade it,
and a successful `Raffo` install moves the stored mode to `Raffo`. -/
theorem claim_C4_install_mode_monotone_witness :
    (installFinalize (Params.init [("mode", PyVal.str "maintainer")]
        (some "cfg")) Mode.developer false =
      Except.ok (Params.init [("mode", PyVal.str "maintainer")]
        (some "cfg"), [], false)) ∧
    (installFinalize (Params.init [("mode", PyVal.str "maintainer")]
        (some "cfg")) Mode.developer true =
      Except.ok (Params.init [("mode", PyVal.str "maintainer")]
        (some "cfg"), [], true)) ∧
    (∃ res, installFinalize (Params.init [("mode", PyVal.str "maintainer")]
        (some "cfg")) Mode.Raffo true = Except.ok res ∧
      dlookup res.1.paramsDict "mode" = some (PyVal.str "Raffo") ∧
      res.2.2 = true) := by
  have h := claim_C4_install_mode_monotone
    (Params.init [("mode", PyVal.str "maintainer")] (some "cfg"))
    Mode.developer Mode.maintainer (by decide)
  have h2 := claim_C4_install_mode_monotone
    (Params.init [("mode", PyVal.str "maintainer")] (some "cfg"))
    Mode.Raffo Mode.maintainer (by decide)
  exact ⟨h.1, h.2.1 (by decide), h2.2.2 (by decide)⟩

/-- Claim C5: version requirement satisfaction uses numeric segment-wise
dotted-version ordering, not lexical string ordering — `4.10 > 4.9` — and
each operator of `MAP_OPERATOR_VERSION` is the corresponding comparison
predicate on parsed versions. -/
theorem claim_C5_numeric_version_ordering :
    validate_isaac_sim (validIsaacDir "4.10") ">4.9" = some true ∧
    validate_isaac_sim (validIsaacDir "4.9") ">4.10" = some false ∧
    validate_isaac_sim (validIsaacDir "4.10") ">=4.10" = some true ∧
    validate_isaac_sim (validIsaacDir "4.10") "<=4.9" = some false ∧
    validate_isaac_sim (validIsaacDir "4.10") "<4.11" = some true ∧
    validate_isaac_sim (validIsaacDir "4.10") "==4.10" = some true ∧
    validate_isaac_sim (validIsaacDir "4.10") "!=4.9" = some true ∧
    (∀ a b : List Nat,
      MAP_OPERATOR_VERSION VerOp.ge a b = (vcmp a b != Ordering.lt) ∧
      MAP_OPERATOR_VERSION VerOp.le a b = (vcmp a b != Ordering.gt) ∧
      MAP_OPERATOR_VERSION VerOp.gt a b = (vcmp a b == Ordering.gt) ∧
      MAP_OPERATOR_VERSION VerOp.lt a b = (vcmp a b == Ordering.lt) ∧
      MAP_OPERATOR_VERSION VerOp.eq a b = (vcmp a b == Ordering.eq) ∧
      MAP_OPERATOR_VERSION VerOp.ne a b = (vcmp a b != Ordering.eq)) := by
  refine ⟨by decide, by decide, by decide, by decide, by decide, by decide,
    by decide, ?_⟩
  intro a b
  exact ⟨rfl, rfl, rfl, rfl, rfl, rfl⟩

/-- Claim C7: a directory missing any one of the three marker files is
excluded from `scanInstalled` results even if the other two are present;
for a directory containing all three, the version key is the descriptor's
content truncated at the first `'-'`. -/
theorem claim_C7_marker_files (basePath : String) :
    (∀ d : IsaacDir,
      (d.hasVERSION = false ∨ d.hasIsaacSimSh = false ∨
        d.hasPythonSh = false) →
      check_isaac_sim d = Option.none) ∧
    (∀ (pre post : List ScanEntry) (e : ScanEntry),
      check_isaac_sim e.dir = Option.none →
      find_all_isaac_sim [⟨basePath, true, pre ++ e :: post⟩] =
        find_all_isaac_sim [⟨basePath, true, pre ++ post⟩]) ∧
    (∀ d : IsaacDir,
      d.hasVERSION = true → d.hasIsaacSimSh = true → d.hasPythonSh = true →
      pyStrip d.versionContent = d.versionContent →
      check_isaac_sim d = some (truncDash d.versionContent)) := by
  refine ⟨?_, ?_, ?_⟩
  · intro d h
    rcases h with h | h | h <;> simp [check_isaac_sim, h]
  · intro pre post e hc
    have hpairs : rootPairs basePath (pre ++ e :: post) =
        rootPairs basePath (pre ++ post) := by
      unfold rootPairs
      rw [List.filterMap_append, List.filterMap_append,
        List.filterMap_cons]
      simp [hc]
    rw [find_all_eq_sort_foldIns, find_all_eq_sort_foldIns]
    simp [collectScan, hpairs]
  · intro d h1 h2 h3 hstrip
    unfold check_isaac_sim
    rw [hstrip] at *
    simp [h1, h2, h3, hstrip]

/-- Closed witness for C7 at concrete directories. -/
theorem claim_C7_marker_files_witness :
    check_isaac_sim ⟨false, true, true, "4.2.0-rc1"⟩ = Option.none ∧
    check_isaac_sim ⟨true, false, true, "4.2.0-rc1"⟩ = Option.none ∧
    check_isaac_sim ⟨true, true, false, "4.2.0-rc1"⟩ = Option.none ∧
    check_isaac_sim (validIsaacDir "4.2.0-rc1") = some "4.2.0" ∧
    find_all_isaac_sim
      [⟨"/root", true, [⟨"bad", ⟨false, true, true, "9.9"⟩⟩]⟩] =
      find_all_isaac_sim [⟨"/root", true, []⟩] := by
  have h := claim_C7_marker_files "/root"
  refine ⟨h.1 _ (Or.inl rfl), h.1 _ (Or.inr (Or.inl rfl)),
    h.1 _ (Or.inr (Or.inr rfl)), ?_, ?_⟩
  · rw [h.2.2 (validIsaacDir "4.2.0-rc1") rfl rfl rfl (by decide)]
    decide
  · exact h.2.1 [] [] ⟨"bad", ⟨false, true, true, "9.9"⟩⟩ rfl

/-- Claim C8: a requirement string from which zero operator clauses are
extracted is vacuously satisfied by any valid candidate; unmatched text is
ignored and never raises. -/
theorem claim_C8_vacuous_requirement (d : IsaacDir) (req : String)
    (hreq : patternFindall req = []) :
    (∀ v, check_isaac_sim d = some v → v ≠ "" →
      validate_isaac_sim d req = some true) ∧
    validate_isaac_sim d req ≠ Option.none := by
  constructor
  · intro v hv hne
    unfold validate_isaac_sim
    rw [hreq, hv]
    simp [hne, evalConds]
  · unfold validate_isaac_sim
    rw [hreq]
    cases hv : check_isaac_sim d with
    | none => simp
    | some v =>
      by_cases hne : v = "" <;> simp [hne, evalConds]

/-- Closed witness for C8: a requirement with no recognizable clause. -/
theorem claim_C8_vacuous_requirement_witness :
    validate_isaac_sim (validIsaacDir "4.2.0")
      "compatible with most setups" = some true :=
  (claim_C8_vacuous_requirement (validIsaacDir "4.2.0") _ (by decide)).1
    "4.2.0" (by decide) (by decide)

/-- Claim C9: `down` with an empty live service list reports "not running"
as a non-error informational outcome and issues zero teardown calls; with a
non-empty list it invokes the teardown tool. -/
theorem claim_C9_down_not_running (robot : String) (ps : List String) :
    (ps = [] →
      docker_robot_stop robot ps =
        (0, StopOutcome.notRunning,
          "The robot " ++ robot ++ " is not running.")) ∧
    (ps ≠ [] →
      (docker_robot_stop robot ps).1 = 1 ∧
      (docker_robot_stop robot ps).2.1 = StopOutcome.stopped) := by
  constructor
  · intro h
    subst h
    rfl
  · intro h
    have hlen : 0 < ps.length := List.length_pos.2 h
    unfold docker_robot_stop
    rw [if_pos hlen]
    exact ⟨rfl, rfl⟩

/-- Closed witness for C9 at concrete service lists. -/
theorem claim_C9_down_not_running_witness :
    docker_robot_stop "nanosaur" [] =
      (0, StopOutcome.notRunning, "The robot nanosaur is not running.") ∧
    (docker_robot_stop "nanosaur" ["nanosaur"]).1 = 1 := by
  have h0 := (claim_C9_down_not_running "nanosaur" []).1 rfl
  have h1 := (claim_C9_down_not_running "nanosaur" ["nanosaur"]).2
    (by decide)
  exact ⟨by rw [h0]; rfl, h1.1⟩

/-- Claim C10: every CLI invocation that supplies a truthy `--mode` reaches
`params.set('mode', args.mode, save=False)`, and since `Params.set` accepts
no `save` parameter this raises a `TypeError` before any subcommand
function executes. -/
theorem claim_C10_mode_override_typeerror (m : String) (hasFunc : Bool)
    (hm : m ≠ "") :
    mainModeDispatch (some m) hasFunc = MainStep.raisedTypeError ∧
    bindPyCall paramsSetSig 2 ["save"] = Except.error "TypeError" := by
  constructor
  · unfold mainModeDispatch
    have ht : (m != "") = true := bne_iff_ne.2 hm
    simp [ht]
    rfl
  · rfl

/-- Closed witness for C10 at a concrete invocation. -/
theorem claim_C10_mode_override_typeerror_witness :
    mainModeDispatch (some "maintainer") true = MainStep.raisedTypeError :=
  (claim_C10_mode_override_typeerror "maintainer" true (by decide)).1

/-- Claim C6 counterexample: the scan's keys are **not** in descending
dotted-version order. With installations `4.10` and `4.9` in one root, the
returned keys are `["4.9", "4.10"]` — string-descending — although `4.9`
parses below `4.10`, so the first key is version-ascending relative to the
second. -/
theorem claim_C6_counterexample :
    dkeys (find_all_isaac_sim
      [⟨"/home/user", true,
        [⟨"isaac-sim-4.10", validIsaacDir "4.10"⟩,
          ⟨"isaac-sim-4.9", validIsaacDir "4.9"⟩]⟩])
      = ["4.9", "4.10"] ∧
    parseVer "4.9" = some [4, 9] ∧
    parseVer "4.10" = some [4, 10] ∧
    vcmp [4, 9] [4, 10] = Ordering.lt := by
  decide

/-- Claim C6 as amended: `scanInstalled` returns a mapping keyed by version
whose keys are in descending **lexicographic string** order (Python string
comparison, not dotted-version numeric order), each version appears exactly
once, and for duplicate versions across search roots the path from the
later-scanned root overwrites the earlier one (the lookup equals the last
candidate in scan order). -/
theorem claim_C6_string_descending_last_wins (roots : List ScanRoot) :
    List.Pairwise descByKey (find_all_isaac_sim roots) ∧
    (dkeys (find_all_isaac_sim roots)).Nodup ∧
    (∀ v, dlookup (find_all_isaac_sim roots) v =
      dlookup (collectScan roots).reverse v) := by
  have hnodup : (dkeys (foldIns [] (collectScan roots))).Nodup :=
    nodup_dkeys_foldIns _ [] (by simp [dkeys])
  have hperm : (foldIns [] (collectScan roots)).Perm
      (pySortDesc (foldIns [] (collectScan roots))) :=
    (List.perm_insertionSort descByKey _).symm
  refine ⟨?_, ?_, ?_⟩
  · rw [find_all_eq_sort_foldIns]
    exact List.sorted_insertionSort descByKey _
  · rw [find_all_eq_sort_foldIns]
    have hk : (dkeys (foldIns [] (collectScan roots))).Perm
        (dkeys (pySortDesc (foldIns [] (collectScan roots)))) :=
      hperm.map Prod.fst
    exact hk.nodup_iff.1 hnodup
  · intro v
    rw [find_all_eq_sort_foldIns, ← dlookup_perm hperm hnodup v,
      dlookup_foldIns]
    cases hc : dlookup (collectScan roots).reverse v with
    | some w => rfl
    | none => rfl

end Nanosaur
